import Mathlib

/-!
Verification development for the cronometer food-data pipeline.

The Lean definitions below are a shallow embedding of the Python sources:
  * cronometer/foods/measure.py, food.py, nutritionInfo.py, serving.py
  * cronometer/datasource/usdaFoodLoader.py, helpers.py, usdaFoods.py,
    userFoods.py
  * cronometer/core/foodManager.py
  * cronometer/user/userDay.py

Numeric amounts (Python floats) are modelled as rationals; Python dicts
are modelled as insertion-ordered association lists with last-binding
lookup (matching dict-comprehension overwrite semantics); exceptions are
modelled with Option / Except.
-/

/-- cronometer.foods.food.FoodSource (an Enum of source tags). -/
inductive FoodSource where
  | user
  | branded
  | experimental
  | legacy
  | sample
  | marketAcquisition
  | subSample
  | foundation
  | agriculturalAcquisition
  | survey
  | deprecated
  | crdb
deriving DecidableEq, Repr

/-- The `value` of each FoodSource enum member in food.py. -/
def FoodSource.value : FoodSource → String
  | .user => "user"
  | .branded => "branded_food"
  | .experimental => "experimental_food"
  | .legacy => "sr_legacy_food"
  | .sample => "sample_food"
  | .marketAcquisition => "market_acquistion"
  | .subSample => "sub_sample_food"
  | .foundation => "foundation_food"
  | .agriculturalAcquisition => "agricultural_acquisition"
  | .survey => "survey_fndds_food"
  | .deprecated => "deprecated"
  | .crdb => "crdb"

/-- cronometer.foods.measure.Measure: grams, amount, description. -/
structure Measure where
  grams : ℚ
  amount : ℚ
  description : String
deriving DecidableEq, Repr

/-- The module-level GRAM constant of measure.py. -/
def GRAM : Measure := { grams := 1, amount := 1, description := "g" }

/-- cronometer.foods.food.FoodNutrient: one named nutrient entry. -/
structure FoodNutrient where
  name : String
  amount : ℚ
deriving DecidableEq, Repr

/-- cronometer.foods.food.FoodProxy. -/
structure FoodProxy where
  name : String
  sourceUID : Nat
  foodSource : FoodSource
  legacyUID : Option Nat := none
deriving DecidableEq, Repr

/-- cronometer.foods.food.Food. `pCF`/`cCF`/`lCF` carry the defaults
applied by the pydantic validators when `None` is passed. -/
structure Food where
  name : String
  uid : Nat
  legacyUID : Option Nat := none
  pCF : ℚ := 4
  cCF : ℚ := 4
  lCF : ℚ := 9
  comments : List String := []
  measures : List Measure
  nutrients : List FoodNutrient
  foodSource : FoodSource
deriving DecidableEq, Repr

/-- Food.nutrientValueByName: amount of the first nutrient with the given
name, 0.0 when absent. -/
def Food.nutrientValueByName (f : Food) (name : String) : ℚ :=
  match f.nutrients.find? (fun nut => nut.name = name) with
  | some nut => nut.amount
  | none => 0

/-- The loop body of Food.setNutrientByName on the nutrient list: update
the first entry with the given name, append a new entry when none
matches. -/
def setNutrientInList (nuts : List FoodNutrient) (name : String) (amount : ℚ) :
    List FoodNutrient :=
  match nuts with
  | [] => [{ name := name, amount := amount }]
  | nut :: rest =>
      if nut.name = name then { nut with amount := amount } :: rest
      else nut :: setNutrientInList rest name amount

/-- Food.setNutrientByName. -/
def Food.setNutrientByName (f : Food) (name : String) (amount : ℚ) : Food :=
  { f with nutrients := setNutrientInList f.nutrients name amount }

/-- cronometer.datasource.usdaFoodLoader.CsvFoodNutrient: one raw
per-100g nutrient row (fid, nid, amount). -/
structure CsvFoodNutrient where
  fid : Nat
  nid : Nat
  amount : ℚ
deriving DecidableEq, Repr

/-- The `extractValue` helper inside `_fixOmegaFats`: amount of the first
row with the given nid, None when there is no such row. -/
def extractValue (foodNuts : List CsvFoodNutrient) (nid : Nat) : Option ℚ :=
  (foodNuts.find? (fun fn => fn.nid = nid)).map (fun fn => fn.amount)

/-- cronometer.datasource.usdaFoodLoader._fixOmegaFats, returning the
updated food together with the `changed` flag. -/
def fixOmegaFats (food : Food) (foodNuts : List CsvFoodNutrient) :
    Food × Bool :=
  let w3a := food.nutrientValueByName "Omega-3"
  let w6a := food.nutrientValueByName "Omega-6"
  let n1270 := extractValue foodNuts 1270
  let n1321 := extractValue foodNuts 1321
  let n1404 := extractValue foodNuts 1404
  let n1269 := extractValue foodNuts 1269
  let n1316 := extractValue foodNuts 1316
  -- linolenic acid
  let step1 : Food × Bool :=
    match n1270, n1404 with
    | some v, none =>
        let w3b := w3a + v
        let w3c := match n1321 with
          | some w => w3b - w
          | none => w3b
        (food.setNutrientByName "Omega-3" w3c, true)
    | _, _ => (food, false)
  -- linoleic acid
  match n1269, n1316 with
  | some v, none => (step1.1.setNutrientByName "Omega-6" (w6a + v), true)
  | _, _ => step1

theorem setNutrientInList_find_same (nuts : List FoodNutrient) (name : String)
    (amount : ℚ) :
    (setNutrientInList nuts name amount).find? (fun nut => nut.name = name) =
      some { name := name, amount := amount } := by
  induction nuts with
  | nil => simp [setNutrientInList]
  | cons nut rest ih =>
      by_cases h : nut.name = name
      · simp [setNutrientInList, h, List.find?]
      · simp [setNutrientInList, h, List.find?, ih]

theorem setNutrientInList_find_other (nuts : List FoodNutrient)
    (name name' : String) (amount : ℚ) (hne : name' ≠ name) :
    (setNutrientInList nuts name' amount).find? (fun nut => nut.name = name) =
      nuts.find? (fun nut => nut.name = name) := by
  induction nuts with
  | nil => simp [setNutrientInList, List.find?, hne]
  | cons nut rest ih =>
      by_cases h : nut.name = name'
      · have hnn : nut.name ≠ name := by
          rw [h]; exact hne
        simp [setNutrientInList, h, List.find?, hnn, hne]
      · by_cases h2 : nut.name = name
        · simp [setNutrientInList, h, List.find?, h2, hne.symm]
        · simp [setNutrientInList, h, List.find?, h2, ih]

theorem nutrientValueByName_set_same (f : Food) (name : String) (amount : ℚ) :
    (f.setNutrientByName name amount).nutrientValueByName name = amount := by
  simp [Food.setNutrientByName, Food.nutrientValueByName,
    setNutrientInList_find_same]

theorem nutrientValueByName_set_other (f : Food) (name name' : String)
    (amount : ℚ) (hne : name' ≠ name) :
    (f.setNutrientByName name' amount).nutrientValueByName name =
      f.nutrientValueByName name := by
  simp [Food.setNutrientByName, Food.nutrientValueByName,
    setNutrientInList_find_other _ _ _ _ hne]

/-- The net change `_fixOmegaFats` applies to the "Omega-3" entry, as a
function of the raw rows alone. -/
def omega3Delta (foodNuts : List CsvFoodNutrient) : ℚ :=
  match extractValue foodNuts 1270, extractValue foodNuts 1404 with
  | some v, none =>
      v - (match extractValue foodNuts 1321 with
           | some w => w
           | none => 0)
  | _, _ => 0

/-- The net change `_fixOmegaFats` applies to the "Omega-6" entry, as a
function of the raw rows alone. -/
def omega6Delta (foodNuts : List CsvFoodNutrient) : ℚ :=
  match extractValue foodNuts 1269, extractValue foodNuts 1316 with
  | some v, none => v
  | _, _ => 0

theorem fixOmegaFats_omega3 (food : Food) (foodNuts : List CsvFoodNutrient) :
    (fixOmegaFats food foodNuts).1.nutrientValueByName "Omega-3" =
      food.nutrientValueByName "Omega-3" + omega3Delta foodNuts := by
  have h63 : ("Omega-6" : String) ≠ "Omega-3" := by decide
  cases h70 : extractValue foodNuts 1270 with
  | none =>
      cases h69 : extractValue foodNuts 1269 with
      | none => simp [fixOmegaFats, omega3Delta, h70, h69]
      | some v =>
          cases h16 : extractValue foodNuts 1316 <;>
            simp [fixOmegaFats, omega3Delta, h70, h69, h16,
              nutrientValueByName_set_other _ _ _ _ h63]
  | some v =>
      cases h04 : extractValue foodNuts 1404 with
      | none =>
          cases h69 : extractValue foodNuts 1269 with
          | none =>
              cases h21 : extractValue foodNuts 1321 <;>
                simp [fixOmegaFats, omega3Delta, h70, h04, h69, h21,
                  nutrientValueByName_set_same] <;> ring
          | some u =>
              cases h16 : extractValue foodNuts 1316 <;>
                cases h21 : extractValue foodNuts 1321 <;>
                  simp [fixOmegaFats, omega3Delta, h70, h04, h69, h16, h21,
                    nutrientValueByName_set_same,
                    nutrientValueByName_set_other _ _ _ _ h63] <;> ring
      | some w =>
          cases h69 : extractValue foodNuts 1269 with
          | none => simp [fixOmegaFats, omega3Delta, h70, h04, h69]
          | some u =>
              cases h16 : extractValue foodNuts 1316 <;>
                simp [fixOmegaFats, omega3Delta, h70, h04, h69, h16,
                  nutrientValueByName_set_other _ _ _ _ h63]

theorem fixOmegaFats_omega6 (food : Food) (foodNuts : List CsvFoodNutrient) :
    (fixOmegaFats food foodNuts).1.nutrientValueByName "Omega-6" =
      food.nutrientValueByName "Omega-6" + omega6Delta foodNuts := by
  have h36 : ("Omega-3" : String) ≠ "Omega-6" := by decide
  cases h69 : extractValue foodNuts 1269 with
  | none =>
      cases h70 : extractValue foodNuts 1270 with
      | none => simp [fixOmegaFats, omega6Delta, h69, h70]
      | some v =>
          cases h04 : extractValue foodNuts 1404 <;>
            simp [fixOmegaFats, omega6Delta, h69, h70, h04,
              nutrientValueByName_set_other _ _ _ _ h36]
  | some v =>
      cases h16 : extractValue foodNuts 1316 with
      | none =>
          cases h70 : extractValue foodNuts 1270 <;>
            [skip; cases h04 : extractValue foodNuts 1404] <;>
            simp [fixOmegaFats, omega6Delta, h69, h16, nutrientValueByName_set_same]
      | some w =>
          cases h70 : extractValue foodNuts 1270 with
          | none => simp [fixOmegaFats, omega6Delta, h69, h16, h70]
          | some u =>
              cases h04 : extractValue foodNuts 1404 <;>
                simp [fixOmegaFats, omega6Delta, h69, h16, h70, h04,
                  nutrientValueByName_set_other _ _ _ _ h36]

/-- C1: if the coarse 18:3 row (nid 1270) is present and the n-3 sub-row
(nid 1404) is absent, the coarse value is added to the food's "Omega-3"
total and the n-6 sub-value (nid 1321) is subtracted when present;
symmetrically, if the coarse 18:2 row (nid 1269) is present and its n-6
sub-row (nid 1316) is absent, the coarse value is added to "Omega-6" with
no subtraction; in all other cases the Omega-3 / Omega-6 entries are left
unchanged. -/
theorem fixOmegaFats_correction (food : Food) (foodNuts : List CsvFoodNutrient) :
    ((∀ v, extractValue foodNuts 1270 = some v →
        extractValue foodNuts 1404 = none →
        (fixOmegaFats food foodNuts).1.nutrientValueByName "Omega-3" =
          food.nutrientValueByName "Omega-3" + v -
            (extractValue foodNuts 1321).getD 0)
     ∧ (extractValue foodNuts 1270 = none ∨ extractValue foodNuts 1404 ≠ none →
        (fixOmegaFats food foodNuts).1.nutrientValueByName "Omega-3" =
          food.nutrientValueByName "Omega-3"))
    ∧ ((∀ v, extractValue foodNuts 1269 = some v →
        extractValue foodNuts 1316 = none →
        (fixOmegaFats food foodNuts).1.nutrientValueByName "Omega-6" =
          food.nutrientValueByName "Omega-6" + v)
     ∧ (extractValue foodNuts 1269 = none ∨ extractValue foodNuts 1316 ≠ none →
        (fixOmegaFats food foodNuts).1.nutrientValueByName "Omega-6" =
          food.nutrientValueByName "Omega-6")) := by
  refine ⟨⟨fun v h70 h04 => ?_, fun h => ?_⟩, fun v h69 h16 => ?_, fun h => ?_⟩
  · rw [fixOmegaFats_omega3]
    cases h21 : extractValue foodNuts 1321 <;>
      simp [omega3Delta, h70, h04, h21] <;> ring
  · rw [fixOmegaFats_omega3]
    rcases h with h | h
    · simp [omega3Delta, h]
    · cases h70 : extractValue foodNuts 1270 with
      | none => simp [omega3Delta, h70]
      | some v =>
          cases h04 : extractValue foodNuts 1404 with
          | none => exact absurd h04 h
          | some w => simp [omega3Delta, h70, h04]
  · rw [fixOmegaFats_omega6]
    simp [omega6Delta, h69, h16]
  · rw [fixOmegaFats_omega6]
    rcases h with h | h
    · simp [omega6Delta, h]
    · cases h69 : extractValue foodNuts 1269 with
      | none => simp [omega6Delta, h69]
      | some v =>
          cases h16 : extractValue foodNuts 1316 with
          | none => exact absurd h16 h
          | some w => simp [omega6Delta, h69, h16]

/-- Witness for C1 at a concrete food and raw-row list: the omega-3
branch fires and adds the coarse 18:3 value minus the 18:3 n-6 value. -/
theorem fixOmegaFats_correction_witness :
    (fixOmegaFats
        { name := "w", uid := 1, measures := [GRAM],
          nutrients := [{ name := "Omega-3", amount := 2 }],
          foodSource := FoodSource.legacy }
        [{ fid := 1, nid := 1270, amount := 5 },
         { fid := 1, nid := 1321, amount := 1 }]).1.nutrientValueByName
      "Omega-3" =
      ({ name := "w", uid := 1, measures := [GRAM],
         nutrients := [{ name := "Omega-3", amount := 2 }],
         foodSource := FoodSource.legacy } : Food).nutrientValueByName
        "Omega-3" + 5 -
        (extractValue
          [{ fid := 1, nid := 1270, amount := 5 },
           { fid := 1, nid := 1321, amount := 1 }] 1321).getD 0 :=
  (fixOmegaFats_correction _ _).1.1 5 (by decide) (by decide)

/-- A concrete food with no stored nutrients, used to refute omega-fix
idempotence. -/
def cexOmegaFood : Food :=
  { name := "f", uid := 1, measures := [GRAM], nutrients := [],
    foodSource := FoodSource.legacy }

/-- Concrete raw rows holding a single coarse 18:3 row of amount 1. -/
def cexOmegaNuts : List CsvFoodNutrient :=
  [{ fid := 1, nid := 1270, amount := 1 }]

/-- C5 counterexample: applying `_fixOmegaFats` twice to the same raw
rows is not the same as applying it once — with raw rows containing only
a coarse 18:3 row of amount 1, one application yields Omega-3 = 1, two
applications yield Omega-3 = 2. -/
theorem fixOmegaFats_not_idempotent :
    (fixOmegaFats (fixOmegaFats cexOmegaFood cexOmegaNuts).1
        cexOmegaNuts).1.nutrientValueByName "Omega-3" = 2
    ∧ (fixOmegaFats cexOmegaFood cexOmegaNuts).1.nutrientValueByName
        "Omega-3" = 1
    ∧ (2 : ℚ) ≠ 1 := by
  have h0 : cexOmegaFood.nutrientValueByName "Omega-3" = 0 := by
    simp [cexOmegaFood, Food.nutrientValueByName]
  have e70 : extractValue cexOmegaNuts 1270 = some 1 := rfl
  have e04 : extractValue cexOmegaNuts 1404 = none := rfl
  have e21 : extractValue cexOmegaNuts 1321 = none := rfl
  have hd : omega3Delta cexOmegaNuts = 1 := by
    simp [omega3Delta, e70, e04, e21]
  have honce : (fixOmegaFats cexOmegaFood cexOmegaNuts).1.nutrientValueByName
      "Omega-3" = 1 := by
    rw [fixOmegaFats_omega3, h0, hd]; norm_num
  refine ⟨?_, honce, by norm_num⟩
  rw [fixOmegaFats_omega3, honce, hd]; norm_num

/-- C5 (amended): the correction reads the food's current Omega totals,
so a second application adds the same corrective delta again: the
twice-applied Omega-3 / Omega-6 values equal the once-applied values
plus `omega3Delta` / `omega6Delta` of the raw rows (hence idempotence
holds only when the applicable delta is zero). -/
theorem fixOmegaFats_twice (food : Food) (foodNuts : List CsvFoodNutrient) :
    (fixOmegaFats (fixOmegaFats food foodNuts).1 foodNuts).1.nutrientValueByName
        "Omega-3" =
      (fixOmegaFats food foodNuts).1.nutrientValueByName "Omega-3" +
        omega3Delta foodNuts
    ∧ (fixOmegaFats (fixOmegaFats food foodNuts).1 foodNuts).1.nutrientValueByName
        "Omega-6" =
      (fixOmegaFats food foodNuts).1.nutrientValueByName "Omega-6" +
        omega6Delta foodNuts :=
  ⟨fixOmegaFats_omega3 _ _, fixOmegaFats_omega6 _ _⟩

/-- cronometer.foods.nutritionInfo.NutrientUnit. -/
inductive NutrientUnit where
  | gram
  | calorie
  | milligram
  | microgram
  | iu
  | ph
  | specificGravity
  | kilojoule
  | microgramRE
  | milligramATR
  | umolTE
  | milligramGAE
deriving DecidableEq, Repr

/-- cronometer.foods.nutritionInfo.NutrientCategory. -/
inductive NutrientCategory where
  | lipids
  | minerals
  | general
  | aminoAcids
  | vitamins
deriving DecidableEq, Repr

/-- cronometer.targets.dri.DRI_Gender. -/
inductive DRIGender where
  | all
  | male
  | female
deriving DecidableEq, Repr

/-- cronometer.targets.dri.DRI: one recommended-intake row. -/
structure DRI where
  minAge : ℚ
  maxAge : ℚ := 10000
  gender : DRIGender := DRIGender.all
  status : Option String := none
  rda : ℚ := -1
  tul : ℚ := -1
deriving DecidableEq, Repr

/-- cronometer.datasource.usdaFoodLoader.CsvNutrient: a nutrient row of
nutrient.csv (nid, name, optional legacy float id, unit). -/
structure CsvNutrient where
  nid : Nat
  name : String
  legacyId : Option ℚ
  unit : NutrientUnit
deriving DecidableEq, Repr

/-- cronometer.foods.nutritionInfo.NutrientInfo: one canonical nutrient
of the resolved schema. -/
structure NutrientInfo where
  name : String
  unit : NutrientUnit
  category : NutrientCategory
  rdi : ℚ
  parentName : Option String
  legacyIds : List ℚ
  usdaIds : List Nat
  sparse : Bool
  track : Bool
  dris : List DRI
  cronIndex : Nat
deriving DecidableEq, Repr

/-- Python dict lookup over an insertion-ordered association list: the
last binding for a key wins (dict-comprehension overwrite semantics). -/
def dictGet {α β : Type} [DecidableEq α] (d : List (α × β)) (k : α) :
    Option β :=
  ((d.filter (fun p => p.1 = k)).getLast?).map (fun p => p.2)

/-- cronometer.foods.nutritionInfo.NutrientInfos. -/
structure NutrientInfos where
  nutrients : List NutrientInfo
deriving DecidableEq, Repr

/-- NutrientInfos.indexOfName via the name-to-cronIndex dict built in
NutrientInfos.__init__. -/
def NutrientInfos.indexOfName (n : NutrientInfos) (name : String) :
    Option Nat :=
  dictGet (n.nutrients.map (fun ni => (ni.name, ni.cronIndex))) name

/-- NutrientInfos.nutrientDictToTuple: project a sparse name-to-amount
dict into schema order, 0 for missing entries. -/
def NutrientInfos.nutrientDictToTuple (n : NutrientInfos)
    (d : List (String × ℚ)) : List ℚ :=
  n.nutrients.map (fun ni => (dictGet d ni.name).getD 0)

/-- Food.nutrientDict: sparse name-to-amount dict scaled by grams/100. -/
def Food.nutrientDict (f : Food) (grams : ℚ) : List (String × ℚ) :=
  f.nutrients.map (fun nut => (nut.name, nut.amount * (grams / 100)))

/-- Food.getMeasureByName: the GRAM measure for an empty name; otherwise
the first measure whose description equals the name, `none` modelling
the IndexError raised on `[m for m in measures if ...][0]` when no
measure matches. -/
def Food.getMeasureByName (f : Food) (name : String) : Option Measure :=
  if name = "" then some GRAM
  else (f.measures.filter (fun m => m.description = name)).head?

/-- cronometer.datasource.usdaFoodLoader.CsvFood: a food.csv row. -/
structure CsvFood where
  foodSource : FoodSource
  fid : Nat
  legacyId : Option Nat := none
  name : String
deriving DecidableEq, Repr

/-- cronometer.datasource.usdaFoodLoader.CsvConversion: a calorie
conversion row. -/
structure CsvConversion where
  cid : Nat
  protein : Option ℚ
  fat : Option ℚ
  carb : Option ℚ
deriving DecidableEq, Repr

/-- cronometer.datasource.usdaFoodLoader.CsvBrandedFood. Dates are
modelled as abstract day numbers. -/
structure CsvBrandedFood where
  fid : Nat
  owner : String
  brand : String
  subbrand : String
  measure : Option Measure
  discontinued : Option Nat
deriving DecidableEq, Repr

/-- The branded-name token list built in generateFoods, parametrized by
the string-similarity function (difflib.SequenceMatcher().ratio() in the
source, an external library routine). -/
def brandedNameList (ratio : String → String → ℚ) (baseName : String)
    (b : CsvBrandedFood) : List String :=
  let l1 := [baseName]
  let l2 :=
    if b.owner ≠ "" ∧ b.brand ≠ "" then
      if ratio b.owner.toLower b.brand.toLower < 1/2 then
        l1 ++ [b.owner, b.brand]
      else l1 ++ [b.brand]
    else if b.owner ≠ "" then l1 ++ [b.owner]
    else if b.brand ≠ "" then l1 ++ [b.brand]
    else l1
  if b.subbrand ≠ "" then l2 ++ [b.subbrand] else l2

/-- The display name computed in generateFoods: the base name when there
is no brand info, otherwise the comma-joined token list. -/
def assembleName (ratio : String → String → ℚ) (baseName : String)
    (bi : Option CsvBrandedFood) : String :=
  match bi with
  | none => baseName
  | some b => String.intercalate "," (brandedNameList ratio baseName b)

/-- The measure list before the 1-gram check in generateFoods: the
portion-derived measures plus the brand's packaged measure when present
(`if bi and bi.measure: m.append(bi.measure)`). -/
def rawMeasures (m0 : List Measure) (bi : Option CsvBrandedFood) :
    List Measure :=
  match bi with
  | some b =>
      match b.measure with
      | some bm => m0 ++ [bm]
      | none => m0
  | none => m0

/-- The per-food body of generateFoods before the omega fix: sparse
nutrient summation over each canonical nutrient's usda-id set, measure
attachment with the 1-gram insertion, conversion-factor defaults and
display-name synthesis. -/
def assembleFood (ratio : String → String → ℚ) (ninfos : NutrientInfos)
    (csvFood : CsvFood) (foodNuts : List CsvFoodNutrient)
    (m0 : List Measure) (bi : Option CsvBrandedFood)
    (c : Option CsvConversion) : Food :=
  let nutList := ninfos.nutrients.filterMap (fun ni =>
    let entries := foodNuts.filter (fun n => ni.usdaIds.contains n.nid)
    if entries.isEmpty then none
    else some { name := ni.name, amount := (entries.map (fun e => e.amount)).sum })
  let m1 := rawMeasures m0 bi
  let m := if GRAM ∈ m1 then m1 else GRAM :: m1
  { name := assembleName ratio csvFood.name bi
    uid := csvFood.fid
    legacyUID := csvFood.legacyId
    pCF := match c with | some cc => cc.protein.getD 4 | none => 4
    lCF := match c with | some cc => cc.fat.getD 9 | none => 9
    cCF := match c with | some cc => cc.carb.getD 4 | none => 4
    comments := []
    measures := m
    nutrients := nutList
    foodSource := csvFood.foodSource }

/-- The full per-food pipeline of generateFoods: assemble, apply the
omega fix, and re-sort the nutrient list by cronIndex when the fix
changed anything. -/
def generateFood (ratio : String → String → ℚ) (ninfos : NutrientInfos)
    (csvFood : CsvFood) (foodNuts : List CsvFoodNutrient)
    (m0 : List Measure) (bi : Option CsvBrandedFood)
    (c : Option CsvConversion) : Food :=
  let food := assembleFood ratio ninfos csvFood foodNuts m0 bi c
  let fixed := fixOmegaFats food foodNuts
  if fixed.2 then
    { fixed.1 with
        nutrients := fixed.1.nutrients.mergeSort (fun a b =>
          (ninfos.indexOfName a.name).getD 0 ≤ (ninfos.indexOfName b.name).getD 0) }
  else fixed.1

/-- cronometer.datasource.usdaFoodLoader.generateFoods: assemble every
food row, with the brand dict, grouped nutrient rows and measure /
conversion dict lookups. -/
def generateFoods (ratio : String → String → ℚ) (csvFoods : List CsvFood)
    (measures : List (Nat × List Measure))
    (conversion : List (Nat × CsvConversion))
    (nutrientInfos : NutrientInfos) (nutrients : List CsvFoodNutrient)
    (brandInfo : List CsvBrandedFood) : List Food :=
  csvFoods.map (fun csvFood =>
    let foodNuts := nutrients.filter (fun n => n.fid = csvFood.fid)
    let bi := (brandInfo.filter (fun b => b.fid = csvFood.fid)).getLast?
    let m0 := (dictGet measures csvFood.fid).getD []
    let c := dictGet conversion csvFood.fid
    generateFood ratio nutrientInfos csvFood foodNuts m0 bi c)

/-- UserFood.model_post_init in userFoods.py: prepend the GRAM measure
when it is not already present. -/
def userFoodPostInitMeasures (ms : List Measure) : List Measure :=
  if GRAM ∈ ms then ms else GRAM :: ms

theorem setNutrientByName_measures (f : Food) (name : String) (amount : ℚ) :
    (f.setNutrientByName name amount).measures = f.measures := rfl

theorem fixOmegaFats_measures (food : Food) (foodNuts : List CsvFoodNutrient) :
    (fixOmegaFats food foodNuts).1.measures = food.measures := by
  unfold fixOmegaFats
  cases extractValue foodNuts 1270 <;>
    cases extractValue foodNuts 1404 <;>
      cases extractValue foodNuts 1269 <;>
        cases extractValue foodNuts 1316 <;>
          simp [Food.setNutrientByName]

theorem assembleFood_measures (ratio : String → String → ℚ)
    (ninfos : NutrientInfos) (csvFood : CsvFood)
    (foodNuts : List CsvFoodNutrient) (m0 : List Measure)
    (bi : Option CsvBrandedFood) (c : Option CsvConversion) :
    (assembleFood ratio ninfos csvFood foodNuts m0 bi c).measures =
      (if GRAM ∈ rawMeasures m0 bi then rawMeasures m0 bi
       else GRAM :: rawMeasures m0 bi) := rfl

theorem generateFood_measures (ratio : String → String → ℚ)
    (ninfos : NutrientInfos) (csvFood : CsvFood)
    (foodNuts : List CsvFoodNutrient) (m0 : List Measure)
    (bi : Option CsvBrandedFood) (c : Option CsvConversion) :
    (generateFood ratio ninfos csvFood foodNuts m0 bi c).measures =
      (if GRAM ∈ rawMeasures m0 bi then rawMeasures m0 bi
       else GRAM :: rawMeasures m0 bi) := by
  unfold generateFood
  cases hf : (fixOmegaFats (assembleFood ratio ninfos csvFood foodNuts m0 bi c)
      foodNuts).2 <;>
    simp [hf, fixOmegaFats_measures, assembleFood_measures]

/-- C6 counterexample: a food assembled from a raw measure list that
already contains the 1-gram measure at a non-initial position keeps that
list unchanged, so `measures[0].grams` is 50, not 1; and a raw list
containing the gram measure twice yields a food holding it twice. -/
theorem gramMeasure_invariant_cex :
    ((generateFood (fun _ _ => 0) ⟨[]⟩
        { foodSource := FoodSource.legacy, fid := 1, name := "x" } []
        [{ grams := 50, amount := 1, description := "cup" }, GRAM]
        none none).measures.head?.map (fun m => m.grams)) = some 50
    ∧ (50 : ℚ) ≠ 1
    ∧ ((generateFood (fun _ _ => 0) ⟨[]⟩
        { foodSource := FoodSource.legacy, fid := 1, name := "x" } []
        [GRAM, GRAM] none none).measures.count GRAM) = 2 := by
  refine ⟨?_, by norm_num, ?_⟩ <;>
    rw [generateFood_measures] <;> decide

/-- C6 (amended): for every food produced by the assembler and every
UserFood after construction, the 1-gram measure is present; when the raw
measure list (portion-derived plus brand measure) does not already
contain it, it is inserted at position 0 and occurs exactly once, so
`measures[0].grams == 1.0` holds in that case; when the raw list already
contains the gram measure the list is kept as-is, so the gram measure
may sit at any position and with any multiplicity. -/
theorem gramMeasure_invariant (ratio : String → String → ℚ)
    (ninfos : NutrientInfos) (csvFood : CsvFood)
    (foodNuts : List CsvFoodNutrient) (m0 : List Measure)
    (bi : Option CsvBrandedFood) (c : Option CsvConversion)
    (ms : List Measure) :
    (GRAM ∈ (generateFood ratio ninfos csvFood foodNuts m0 bi c).measures)
    ∧ (GRAM ∉ rawMeasures m0 bi →
        (generateFood ratio ninfos csvFood foodNuts m0 bi c).measures.head? =
          some GRAM
        ∧ (generateFood ratio ninfos csvFood foodNuts m0 bi c).measures.count
            GRAM = 1)
    ∧ (GRAM ∈ userFoodPostInitMeasures ms)
    ∧ (GRAM ∉ ms →
        (userFoodPostInitMeasures ms).head? = some GRAM
        ∧ (userFoodPostInitMeasures ms).count GRAM = 1) := by
  rw [generateFood_measures]
  refine ⟨?_, fun h => ?_, ?_, fun h => ?_⟩
  · split
    · assumption
    · exact List.mem_cons_self _ _
  · rw [if_neg h]
    exact ⟨rfl, by simp [List.count_cons, List.count_eq_zero.mpr h]⟩
  · unfold userFoodPostInitMeasures
    split
    · assumption
    · exact List.mem_cons_self _ _
  · unfold userFoodPostInitMeasures
    rw [if_neg h]
    exact ⟨rfl, by simp [List.count_cons, List.count_eq_zero.mpr h]⟩

/-- Witness for C6 (amended) at a raw measure list without the gram
measure: the gram measure is present, first, and occurs exactly once. -/
theorem gramMeasure_invariant_witness :
    (GRAM ∈ (generateFood (fun _ _ => 0) ⟨[]⟩
        { foodSource := FoodSource.legacy, fid := 1, name := "x" } []
        [{ grams := 50, amount := 1, description := "cup" }] none
        none).measures)
    ∧ (generateFood (fun _ _ => 0) ⟨[]⟩
        { foodSource := FoodSource.legacy, fid := 1, name := "x" } []
        [{ grams := 50, amount := 1, description := "cup" }] none
        none).measures.head? = some GRAM
    ∧ (userFoodPostInitMeasures []).head? = some GRAM :=
  ⟨(gramMeasure_invariant (fun _ _ => 0) ⟨[]⟩
      { foodSource := FoodSource.legacy, fid := 1, name := "x" } []
      [{ grams := 50, amount := 1, description := "cup" }] none none []).1,
   ((gramMeasure_invariant (fun _ _ => 0) ⟨[]⟩
      { foodSource := FoodSource.legacy, fid := 1, name := "x" } []
      [{ grams := 50, amount := 1, description := "cup" }] none none
      []).2.1 (by decide)).1,
   ((gramMeasure_invariant (fun _ _ => 0) ⟨[]⟩
      { foodSource := FoodSource.legacy, fid := 1, name := "x" } []
      [{ grams := 50, amount := 1, description := "cup" }] none none
      []).2.2.2 (by decide)).1⟩

/-- C8: for a branded food with nonempty owner and brand, the name token
list starts from the base name, contains both owner and brand exactly
when the similarity ratio of the lowered strings is below 0.5, keeps
only the brand token when the ratio is at least 0.5, always appends a
nonempty subbrand, and the display name is the comma-join of the
tokens. -/
theorem brandedName_synthesis (ratio : String → String → ℚ)
    (base : String) (b : CsvBrandedFood) (ho : b.owner ≠ "")
    (hb : b.brand ≠ "") :
    brandedNameList ratio base b =
      (if ratio b.owner.toLower b.brand.toLower < 1/2 then
        [base, b.owner, b.brand]
       else [base, b.brand])
      ++ (if b.subbrand ≠ "" then [b.subbrand] else [])
    ∧ assembleName ratio base (some b) =
        String.intercalate "," (brandedNameList ratio base b)
    ∧ (brandedNameList ratio base b).head? = some base := by
  refine ⟨?_, rfl, ?_⟩
  · unfold brandedNameList
    simp only [ho, hb, ne_eq, not_false_eq_true, and_self, if_true]
    split <;> split <;> simp
  · unfold brandedNameList
    simp only [ho, hb, ne_eq, not_false_eq_true, and_self, if_true]
    split <;> split <;> simp

/-- Witness for C8 at a concrete branded food (owner "Acme", brand
"Zeta", empty subbrand) under a similarity function returning 0. -/
theorem brandedName_synthesis_witness :
    brandedNameList (fun _ _ => 0) "Base"
        { fid := 1, owner := "Acme", brand := "Zeta", subbrand := "",
          measure := none, discontinued := none } =
      (if (fun (_ _ : String) => (0 : ℚ)) "acme" "zeta" < 1/2 then
        ["Base", "Acme", "Zeta"]
       else ["Base", "Zeta"])
      ++ (if ("" : String) ≠ "" then [""] else []) :=
  (brandedName_synthesis (fun _ _ => 0) "Base"
    { fid := 1, owner := "Acme", brand := "Zeta", subbrand := "",
      measure := none, discontinued := none }
    (by decide) (by decide)).1

/-- A pre-validation legacy nutrient definition (the XML attributes of
LegacyNutrientInfo in nutritionInfo.py before pydantic fills defaults).
`usda` is the parsed comma-separated float-id list of the `usda`
attribute; `indexAttr` is the `index` attribute, `none` when the XML
omits it so that the `_getNextId` default factory runs. -/
structure RawLegacyNutrient where
  name : String
  unit : NutrientUnit
  category : NutrientCategory
  rdi : ℚ := 0
  parentName : Option String := none
  usda : List ℚ := []
  sparse : Bool := false
  track : Bool := true
  dris : List DRI := []
  indexAttr : Option Nat := none
deriving DecidableEq, Repr

/-- cronometer.foods.nutritionInfo.LegacyNutrientInfo after validation:
every definition carries a concrete ordinal `index`. -/
structure LegacyNutrientInfo where
  name : String
  unit : NutrientUnit
  category : NutrientCategory
  rdi : ℚ := 0
  parentName : Option String := none
  usda : List ℚ := []
  sparse : Bool := false
  track : Bool := true
  dris : List DRI := []
  index : Nat
deriving DecidableEq, Repr

/-- Validation of a legacy definition list: the `index` default factory
`_getNextId` is a process-wide mutable counter, modelled here as
explicit state threaded in document order. A definition with an
explicit index attribute keeps it and leaves the counter untouched; a
definition without one receives the current counter value, which is
then incremented. -/
def assignIndices (counter : Nat) :
    List RawLegacyNutrient → List LegacyNutrientInfo × Nat
  | [] => ([], counter)
  | r :: rest =>
      match r.indexAttr with
      | some i =>
          let p := assignIndices counter rest
          ({ name := r.name, unit := r.unit, category := r.category,
             rdi := r.rdi, parentName := r.parentName, usda := r.usda,
             sparse := r.sparse, track := r.track, dris := r.dris,
             index := i } :: p.1, p.2)
      | none =>
          let p := assignIndices (counter + 1) rest
          ({ name := r.name, unit := r.unit, category := r.category,
             rdi := r.rdi, parentName := r.parentName, usda := r.usda,
             sparse := r.sparse, track := r.track, dris := r.dris,
             index := counter } :: p.1, p.2)

/-- The `legacyIdToUsda` dict lookup of generateNutrientInfo
(`{n.legacyId: n for n in csvData}` with last-binding-wins, queried at a
float legacy id). A missing key models the KeyError raised by
`legacyIdToUsda[legId.index]`. -/
def resolveLegacyId (csvData : List CsvNutrient) (legId : ℚ) :
    Option CsvNutrient :=
  (csvData.filter (fun n => n.legacyId = some legId)).getLast?

/-- cronometer.datasource.usdaFoodLoader.generateNutrientInfo: resolve
every legacy definition's usda ids through the csv nutrient table,
failing on a missing id (KeyError) or a unit mismatch (ValueError), and
copy the legacy ordinal into cronIndex. -/
def generateNutrientInfo (csvData : List CsvNutrient)
    (legacyData : List LegacyNutrientInfo) : Except String NutrientInfos := do
  let nutList ← legacyData.mapM (fun lni => do
    let usdaIds ← lni.usda.mapM (fun legId =>
      match resolveLegacyId csvData legId with
      | none => Except.error "KeyError"
      | some usdaNi =>
          if usdaNi.unit ≠ lni.unit then
            Except.error "Cannot match unit type"
          else Except.ok usdaNi.nid)
    Except.ok { name := lni.name, unit := lni.unit, category := lni.category,
                rdi := lni.rdi, parentName := lni.parentName,
                legacyIds := lni.usda, usdaIds := usdaIds,
                sparse := lni.sparse, track := lni.track, dris := lni.dris,
                cronIndex := lni.index })
  Except.ok ⟨nutList⟩

/-- One schema-resolution run as performed by the conversion pipeline:
validate the legacy XML definitions (consuming the `_getNextId` counter
state) and resolve them against the csv nutrient table. Returns the
resolved schema and the counter state left for the next run. -/
def resolveSchema (counter : Nat) (rawDefs : List RawLegacyNutrient)
    (csvData : List CsvNutrient) : Except String NutrientInfos × Nat :=
  let p := assignIndices counter rawDefs
  (generateNutrientInfo csvData p.1, p.2)

/-- A single legacy definition without an explicit index attribute. -/
def cexRawDefs : List RawLegacyNutrient :=
  [{ name := "Protein", unit := NutrientUnit.gram,
     category := NutrientCategory.general, usda := [203] }]

/-- A csv nutrient table resolving legacy id 203.0 to nid 1003. -/
def cexCsv : List CsvNutrient :=
  [{ nid := 1003, name := "Protein", legacyId := some 203,
     unit := NutrientUnit.gram }]

/-- C4 counterexample: two successive schema resolutions in one process
on identical inputs disagree — the first run assigns the nutrient
ordinal 0, the second (started from the counter state the first run
left behind) assigns ordinal 1, because the default ordinal comes from
the process-wide `_getNextId` counter, not from the input list alone. -/
theorem schemaResolution_not_deterministic :
    (resolveSchema 0 cexRawDefs cexCsv).1.map
        (fun n => n.nutrients.map (fun ni => ni.cronIndex)) = Except.ok [0]
    ∧ (resolveSchema (resolveSchema 0 cexRawDefs cexCsv).2 cexRawDefs
        cexCsv).1.map
        (fun n => n.nutrients.map (fun ni => ni.cronIndex)) = Except.ok [1]
    ∧ (resolveSchema 0 cexRawDefs cexCsv).1 ≠
        (resolveSchema (resolveSchema 0 cexRawDefs cexCsv).2 cexRawDefs
          cexCsv).1 := by
  have h1 : (resolveSchema 0 cexRawDefs cexCsv).1.map
      (fun n => n.nutrients.map (fun ni => ni.cronIndex)) = Except.ok [0] := rfl
  have h2 : (resolveSchema (resolveSchema 0 cexRawDefs cexCsv).2 cexRawDefs
      cexCsv).1.map
      (fun n => n.nutrients.map (fun ni => ni.cronIndex)) = Except.ok [1] := rfl
  refine ⟨h1, h2, fun h => ?_⟩
  have h3 := h1.symm.trans
    ((congrArg (Except.map (fun n => n.nutrients.map (fun ni => ni.cronIndex)))
      h).trans h2)
  simp at h3

theorem assignIndices_counter_free (rawDefs : List RawLegacyNutrient)
    (h : ∀ r ∈ rawDefs, r.indexAttr ≠ none) (c c' : Nat) :
    (assignIndices c rawDefs).1 = (assignIndices c' rawDefs).1 := by
  induction rawDefs generalizing c c' with
  | nil => rfl
  | cons r rest ih =>
      have hr : r.indexAttr ≠ none := h r (List.mem_cons_self _ _)
      have hrest : ∀ x ∈ rest, x.indexAttr ≠ none :=
        fun x hx => h x (List.mem_cons_of_mem _ hx)
      cases hi : r.indexAttr with
      | none => exact absurd hi hr
      | some i => simp [assignIndices, hi, ih hrest c c']

/-- C4 (amended): schema resolution is a pure function of the validated
definitions, so two runs agree whenever the `_getNextId` counter is in
the same state — in particular, when every legacy definition carries an
explicit index attribute the assigned ordinals do not depend on the
counter state at all; but when index attributes are absent the default
ordinals come from the process-wide counter, so two successive runs in
one process disagree (see the counterexample). -/
theorem schemaResolution_deterministic (rawDefs : List RawLegacyNutrient)
    (csvData : List CsvNutrient) (c c' : Nat)
    (h : ∀ r ∈ rawDefs, r.indexAttr ≠ none) :
    (resolveSchema c rawDefs csvData).1 = (resolveSchema c' rawDefs csvData).1 := by
  have hac := assignIndices_counter_free rawDefs h c c'
  simp [resolveSchema, hac]

/-- Witness for C4 (amended): with an explicit index attribute the runs
from counter states 0 and 7 agree. -/
theorem schemaResolution_deterministic_witness :
    (resolveSchema 0
        [{ name := "Protein", unit := NutrientUnit.gram,
           category := NutrientCategory.general, usda := [203],
           indexAttr := some 5 }] cexCsv).1 =
      (resolveSchema 7
        [{ name := "Protein", unit := NutrientUnit.gram,
           category := NutrientCategory.general, usda := [203],
           indexAttr := some 5 }] cexCsv).1 :=
  schemaResolution_deterministic _ cexCsv 0 7 (by decide)

/-- The index line written per food by convertUsdaFoods:
`f"{legId}{food.uid}|{food.name}\n"` where the `legId` prefix
`f"{food.legacyUID}|||"` is emitted only when `food.legacyUID` is truthy
(neither None nor 0). -/
def indexLineFor (food : Food) : String :=
  let legId := match food.legacyUID with
    | some l => if l = 0 then "" else toString l ++ "|||"
    | none => ""
  legId ++ toString food.uid ++ "|" ++ food.name ++ "\n"

/-- Numeric value of a digit run, as python int() computes it. -/
def digitsToNat (cs : List Char) : Nat :=
  cs.foldl (fun acc c => acc * 10 + (c.toNat - 48)) 0

/-- Match of the suffix `(\d+)\|(.*)` of INDEX_PAT in helpers.py: a
nonempty digit run, a literal bar, then everything up to the first
newline (`.` does not match newline). -/
def matchIdName (cs : List Char) : Option (Nat × String) :=
  let d := cs.takeWhile Char.isDigit
  let rest := cs.dropWhile Char.isDigit
  if d.isEmpty then none
  else
    match rest with
    | '|' :: rest2 =>
        some (digitsToNat d, String.mk (rest2.takeWhile (fun c => c ≠ '\n')))
    | _ => none

/-- helpers.INDEX_PAT `(?:(\d+)\|\|\|)?(\d+)\|(.*)` matched at the line
start: the optional legacy group matches when the leading maximal digit
run is nonempty and immediately followed by three bars and the remainder
parses as id-bar-name; otherwise the regex engine falls back to matching
without the optional group. -/
def matchIndexPat (line : String) : Option (Option Nat × Nat × String) :=
  let cs := line.toList
  let d := cs.takeWhile Char.isDigit
  let rest := cs.dropWhile Char.isDigit
  if d.isEmpty = false ∧ ['|', '|', '|'].isPrefixOf rest then
    match matchIdName (rest.drop 3) with
    | some p => some (some (digitsToNat d), p.1, p.2)
    | none => (matchIdName cs).map (fun p => (none, p.1, p.2))
  else (matchIdName cs).map (fun p => (none, p.1, p.2))

/-- One line of cronometer.datasource.helpers.readIndex: build a
FoodProxy from the INDEX_PAT groups; `none` models the AttributeError
raised on `res.group` when the pattern does not match. -/
def readIndexLine (foodSource : FoodSource) (line : String) :
    Option FoodProxy :=
  (matchIndexPat line).map (fun r =>
    { name := r.2.2, sourceUID := r.2.1, foodSource := foodSource,
      legacyUID := r.1 })

/-- cronometer.datasource.helpers.readIndex over the lines of an index
file. -/
def readIndex (foodSource : FoodSource) (lines : List String) :
    Option (List FoodProxy) :=
  lines.mapM (readIndexLine foodSource)

/-- `line.split("|", 1)` as used by usdaFoods.__readIndex: split at the
first bar; `none` models the ValueError raised by the two-name unpacking
when the line holds no bar. -/
def splitOncePipe (cs : List Char) : Option (List Char × List Char) :=
  match cs with
  | [] => none
  | '|' :: rest => some ([], rest)
  | c :: rest => (splitOncePipe rest).map (fun p => (c :: p.1, p.2))

/-- python `int()` on the uid part: defined only for a nonempty digit
run. -/
def pyIntDigits (cs : List Char) : Option Nat :=
  if cs.isEmpty = false ∧ cs.all Char.isDigit then some (digitsToNat cs)
  else none

/-- One line of cronometer.datasource.usdaFoods.__readIndex:
`uid, name = line.split("|", 1)` then `int(uid)`; the trailing newline is
kept in the name. (The surrounding code also references the nonexistent
enum member FoodSource.USDA, so in the repository this loop raises
AttributeError on every line it processes; the parse modelled here is
what the split and int() produce.) -/
def usdaReadIndexLine (line : String) : Option (Nat × String) :=
  match splitOncePipe line.toList with
  | none => none
  | some p => (pyIntDigits p.1).map (fun uid => (uid, String.mk p.2))

/-- The concrete food of the C3 round-trip example. -/
def cexIndexFood : Food :=
  { name := "Test Food", uid := 117, legacyUID := some 42,
    measures := [GRAM], nutrients := [], foodSource := FoodSource.legacy }

/-- C3: the index line written for uid 117 / legacy 42 / name
"Test Food" is "42|||117|Test Food\n"; reading it back through the
INDEX_PAT reader of helpers.py yields the claimed proxy (sourceUID 117,
legacyUID 42, name "Test Food"), but the per-category index reader
usdaFoods.__readIndex — the one the runtime actually uses on these
files — splits at the first bar and yields uid 42 with the garbled name
"||117|Test Food\n". -/
theorem indexRoundTrip_divergence :
    indexLineFor cexIndexFood = "42|||117|Test Food\n"
    ∧ readIndexLine FoodSource.legacy (indexLineFor cexIndexFood) =
        some { name := "Test Food", sourceUID := 117,
               foodSource := FoodSource.legacy, legacyUID := some 42 }
    ∧ usdaReadIndexLine (indexLineFor cexIndexFood) =
        some (42, "||117|Test Food\n")
    ∧ (42 : Nat) ≠ 117 := by
  refine ⟨by decide, by decide, by decide, by decide⟩

/-- Python dict update `d[k] = v`: overwrite the binding(s) for an
existing key in place, append a new binding otherwise. -/
def dictSet {α β : Type} [DecidableEq α] (d : List (α × β)) (k : α)
    (v : β) : List (α × β) :=
  if d.any (fun p => p.1 = k) then
    d.map (fun p => if p.1 = k then (k, v) else p)
  else d ++ [(k, v)]

/-- cronometer.core.foodManager._FoodSourceWrapper: the per-source
proxy list and the memoization cache `self.__foods` (which stores
whatever the loader returned, including a failed user-food load). -/
structure FoodSourceWrapper where
  source : FoodSource
  proxies : List FoodProxy
  foods : List (Nat × Option Food)
deriving DecidableEq, Repr

/-- The file-system-backed loaders the wrapper dispatches to
(userFoods.loadUserFood and the loaders referenced for the crdb / usda
branches), modelled as an environment. -/
structure LoadEnv where
  userProxies : List FoodProxy
  crdbProxies : List FoodProxy
  deprecatedProxies : List FoodProxy
  usdaProxies : FoodSource → List FoodProxy
  loadUserFood : Nat → Option Food
  loadCrdbFood : Nat → Option Food
  loadUsdaFood : FoodSource → Nat → Option Food

/-- _FoodSourceWrapper.__init__: choose the proxy loader by source kind
and start with an empty food cache. -/
def mkWrapper (env : LoadEnv) (source : FoodSource) : FoodSourceWrapper :=
  { source := source
    proxies :=
      match source with
      | .user => env.userProxies
      | .crdb => env.crdbProxies
      | .deprecated => env.deprecatedProxies
      | s => env.usdaProxies s
    foods := [] }

/-- _FoodSourceWrapper.getFood: serve from the cache when present,
otherwise dispatch to the source-specific loader and memoize the
result. -/
def FoodSourceWrapper.getFood (env : LoadEnv) (w : FoodSourceWrapper)
    (index : Nat) : Option Food × FoodSourceWrapper :=
  match dictGet w.foods index with
  | some f => (f, w)
  | none =>
      let food : Option Food :=
        match w.source with
        | .user => env.loadUserFood index
        | .crdb => env.loadCrdbFood index
        | s => env.loadUsdaFood s index
      (food, { w with foods := w.foods ++ [(index, food)] })

/-- cronometer.core.foodManager.FoodManager state. -/
structure FoodManager where
  foodSources : List (FoodSource × FoodSourceWrapper)
  nutrientInfo : NutrientInfos

/-- The message of the MessageError raised by FoodManager.__getSource
(errors.MessageError is a message-carrying exception; only its message
matters here). -/
def notLoadedMsg (source : FoodSource) : String :=
  "Food Source " ++ source.value ++
    " is not loaded. Please enable it in preferences to use. "

/-- The `source in self.__foodSources` lookup of
FoodManager.__getSource. -/
def FoodManager.lookupSource (m : FoodManager) (s : FoodSource) :
    Option FoodSourceWrapper :=
  dictGet m.foodSources s

/-- FoodManager.addSource. -/
def FoodManager.addSource (env : LoadEnv) (m : FoodManager)
    (s : FoodSource) : FoodManager :=
  { m with foodSources := dictSet m.foodSources s (mkWrapper env s) }

/-- FoodManager.removeSource (`dict.pop(source, None)`). -/
def FoodManager.removeSource (m : FoodManager) (s : FoodSource) :
    FoodManager :=
  { m with foodSources := m.foodSources.filter (fun p => p.1 ≠ s) }

/-- FoodManager.getFood: raise MessageError when the source is not
loaded (leaving the manager untouched), otherwise dispatch to the
source's wrapper, whose in-place cache mutation is modelled by writing
the updated wrapper back. -/
def FoodManager.getFood (env : LoadEnv) (m : FoodManager) (s : FoodSource)
    (index : Nat) : Except String (Option Food) × FoodManager :=
  match FoodManager.lookupSource m s with
  | none => (Except.error (notLoadedMsg s), m)
  | some w =>
      let r := FoodSourceWrapper.getFood env w index
      (Except.ok r.1, { m with foodSources := dictSet m.foodSources s r.2 })

theorem dictGet_filter_ne {α β : Type} [DecidableEq α]
    (d : List (α × β)) (k : α) :
    dictGet (d.filter (fun p => p.1 ≠ k)) k = none := by
  induction d with
  | nil => rfl
  | cons p rest ih =>
      by_cases h : p.1 = k
      · simpa [dictGet, List.filter, h] using ih
      · simpa [dictGet, List.filter, h] using ih

theorem filter_map_overwrite {α β : Type} [DecidableEq α]
    (d : List (α × β)) (k : α) (v : β) :
    (d.map (fun p => if p.1 = k then (k, v) else p)).filter
        (fun p => p.1 = k) =
      (d.filter (fun p => p.1 = k)).map (fun _ => (k, v)) := by
  induction d with
  | nil => rfl
  | cons p rest ih =>
      by_cases h : p.1 = k
      · simp [List.filter_cons, h, ih]
      · simp [List.filter_cons, h, ih]

theorem dictGet_dictSet_self {α β : Type} [DecidableEq α]
    (d : List (α × β)) (k : α) (v : β) :
    dictGet (dictSet d k v) k = some v := by
  unfold dictSet
  by_cases hd : d.any (fun p => p.1 = k)
  · rw [if_pos hd]
    unfold dictGet
    rw [filter_map_overwrite]
    obtain ⟨p0, hp0, hpk⟩ := List.any_eq_true.mp hd
    have hmem : p0 ∈ d.filter (fun p => decide (p.1 = k)) :=
      List.mem_filter.mpr ⟨hp0, hpk⟩
    rcases hl : (d.filter (fun p => decide (p.1 = k))).getLast? with _ | q
    · rw [List.getLast?_eq_none_iff] at hl
      rw [hl] at hmem
      exact absurd hmem (List.not_mem_nil _)
    · rw [List.getLast?_map, hl]
      rfl
  · rw [if_neg hd]
    unfold dictGet
    have hfil : d.filter (fun p => decide (p.1 = k)) = [] := by
      rw [List.filter_eq_nil_iff]
      intro q hq hqk
      exact hd (List.any_eq_true.mpr ⟨q, hq, hqk⟩)
    rw [List.filter_append, hfil]
    simp

/-- C7: requesting a food from a source that is not in the manager's
loaded-source dict fails with the MessageError whose message names the
source's display value, and leaves the manager unchanged; the message is
exactly the "Food Source ... is not loaded" text around `source.value`;
for a loaded source the call is dispatched to that source's wrapper
(returning its result and writing back its updated cache); removeSource
deactivates a source and addSource activates one. -/
theorem foodManager_getFood_gating (env : LoadEnv) (m : FoodManager)
    (s : FoodSource) (index : Nat) :
    (FoodManager.lookupSource m s = none →
      FoodManager.getFood env m s index = (Except.error (notLoadedMsg s), m))
    ∧ notLoadedMsg s =
        "Food Source " ++ s.value ++
          " is not loaded. Please enable it in preferences to use. "
    ∧ (∀ w, FoodManager.lookupSource m s = some w →
        FoodManager.getFood env m s index =
          (Except.ok (FoodSourceWrapper.getFood env w index).1,
           { m with foodSources :=
              dictSet m.foodSources s (FoodSourceWrapper.getFood env w index).2 }))
    ∧ FoodManager.lookupSource (FoodManager.removeSource m s) s = none
    ∧ FoodManager.lookupSource (FoodManager.addSource env m s) s =
        some (mkWrapper env s) := by
  refine ⟨fun h => ?_, rfl, fun w h => ?_, ?_, ?_⟩
  · simp [FoodManager.getFood, h]
  · simp [FoodManager.getFood, h]
  · exact dictGet_filter_ne m.foodSources s
  · exact dictGet_dictSet_self m.foodSources s (mkWrapper env s)

/-- Witness for C7: on a manager with no loaded sources, getFood for the
legacy source fails with the message naming "sr_legacy_food" and leaves
the manager unchanged. -/
theorem foodManager_getFood_gating_witness :
    FoodManager.getFood
        { userProxies := [], crdbProxies := [], deprecatedProxies := [],
          usdaProxies := fun _ => [], loadUserFood := fun _ => none,
          loadCrdbFood := fun _ => none, loadUsdaFood := fun _ _ => none }
        { foodSources := [], nutrientInfo := ⟨[]⟩ } FoodSource.legacy 7 =
      (Except.error (notLoadedMsg FoodSource.legacy),
       { foodSources := [], nutrientInfo := ⟨[]⟩ }) :=
  (foodManager_getFood_gating
    { userProxies := [], crdbProxies := [], deprecatedProxies := [],
      usdaProxies := fun _ => [], loadUserFood := fun _ => none,
      loadCrdbFood := fun _ => none, loadUsdaFood := fun _ _ => none }
    { foodSources := [], nutrientInfo := ⟨[]⟩ } FoodSource.legacy 7).1 rfl

/-- cronometer.foods.serving.Serving. Calendar dates are modelled as
abstract day numbers. -/
structure Serving where
  date : Nat
  source : FoodSource
  food : Nat
  grams : ℚ
  measure : String := ""
  meal : Int := 0
deriving DecidableEq, Repr

/-- Length of python `zip(*xss)`: 0 for no arguments, otherwise the
minimum of the list lengths. -/
def minLen : List (List ℚ) → Nat
  | [] => 0
  | [xs] => xs.length
  | xs :: y :: rest => min xs.length (minLen (y :: rest))

/-- `tuple(sum(a) for a in zip(*xss))`: position i of the result (for
i below every list's length) is the sum of the entries at position i. -/
def sumZip (xss : List (List ℚ)) : List ℚ :=
  (List.range (minLen xss)).map (fun i => (xss.map (fun xs => xs.getD i 0)).sum)

/-- The exceptions that abort UserDay.__build: a MessageError /
load failure from FoodManager.getFood, or the IndexError from
Food.getMeasureByName. -/
inductive BuildError where
  | foodNotFound (source : FoodSource) (food : Nat)
  | measureNotFound (measure : String)
deriving DecidableEq, Repr

/-- The loop state of UserDay.__build: the lists appended per serving,
the meal-id set, and the defaultdict groupings in first-occurrence
order. -/
structure BuildAcc where
  foods : List Food
  servingTuples : List (List ℚ)
  servingSize : List ℚ
  meals : List Int
  mealTuples : List (Int × List (List ℚ))
  servingsByMeal : List (Int × List Serving)
deriving Repr

/-- defaultdict(list) append: extend the existing group or open a new
one at the end (first-occurrence key order). -/
def appendToGroup {γ : Type} (groups : List (Int × List γ)) (m : Int)
    (x : γ) : List (Int × List γ) :=
  match groups with
  | [] => [(m, [x])]
  | g :: rest =>
      if g.1 = m then (g.1, g.2 ++ [x]) :: rest
      else g :: appendToGroup rest m x

/-- One iteration of the serving loop in UserDay.__build. The catalog is
abstracted as a lookup function; `none` models the exception raised by
FoodManager.getFood. -/
def buildStep (getFood : FoodSource → Nat → Option Food)
    (nutInfo : NutrientInfos) (acc : BuildAcc) (s : Serving) :
    Except BuildError BuildAcc :=
  match getFood s.source s.food with
  | none => Except.error (BuildError.foodNotFound s.source s.food)
  | some food =>
      let nutrientTuple := nutInfo.nutrientDictToTuple (food.nutrientDict s.grams)
      match food.getMeasureByName s.measure with
      | none => Except.error (BuildError.measureNotFound s.measure)
      | some measure =>
          Except.ok
            { foods := acc.foods ++ [food]
              servingTuples := acc.servingTuples ++ [nutrientTuple]
              servingSize := acc.servingSize ++ [s.grams / measure.grams]
              meals :=
                if s.meal ≠ 0 ∧ s.meal ∉ acc.meals then acc.meals ++ [s.meal]
                else acc.meals
              mealTuples :=
                if s.meal ≠ 0 then appendToGroup acc.mealTuples s.meal nutrientTuple
                else acc.mealTuples
              servingsByMeal :=
                if s.meal ≠ 0 then appendToGroup acc.servingsByMeal s.meal s
                else acc.servingsByMeal }

/-- The derived structures a successful UserDay.__build leaves behind. -/
structure DayData where
  foods : List Food
  servingTuples : List (List ℚ)
  servingSize : List ℚ
  meals : List Int
  servingsByMeal : List (Int × List Serving)
  nutrition : List ℚ
  mealNutrition : List (Int × List ℚ)
deriving Repr

/-- UserDay.__build: fold the serving loop, then derive the whole-day
total, the per-meal totals and the sorted meal list. -/
def buildDay (getFood : FoodSource → Nat → Option Food)
    (nutInfo : NutrientInfos) (servings : List Serving) :
    Except BuildError DayData :=
  match servings.foldlM (buildStep getFood nutInfo)
      { foods := [], servingTuples := [], servingSize := [], meals := [],
        mealTuples := [], servingsByMeal := [] } with
  | Except.error e => Except.error e
  | Except.ok acc =>
      Except.ok
        { foods := acc.foods
          servingTuples := acc.servingTuples
          servingSize := acc.servingSize
          meals := acc.meals.mergeSort (fun a b => a ≤ b)
          servingsByMeal := acc.servingsByMeal
          nutrition := sumZip acc.servingTuples
          mealNutrition := acc.mealTuples.map (fun p => (p.1, sumZip p.2)) }

/-- The nutrient tuple a resolvable serving contributes ([] as a junk
value when the food does not resolve; only used under resolvability). -/
def tupOf (getFood : FoodSource → Nat → Option Food)
    (nutInfo : NutrientInfos) (s : Serving) : List ℚ :=
  match getFood s.source s.food with
  | some food => nutInfo.nutrientDictToTuple (food.nutrientDict s.grams)
  | none => []

/-- Entry i of a serving's nutrient tuple. -/
def tupI (getFood : FoodSource → Nat → Option Food)
    (nutInfo : NutrientInfos) (i : Nat) (s : Serving) : ℚ :=
  (tupOf getFood nutInfo s).getD i 0

/-- Sum of the entries at position i over every tuple of every group. -/
def groupsSumI (i : Nat) (groups : List (Int × List (List ℚ))) : ℚ :=
  (groups.map (fun p => (p.2.map (fun t => t.getD i 0)).sum)).sum

/-- All tuples in all groups have the schema length. -/
def groupsWF (L : Nat) (groups : List (Int × List (List ℚ))) : Prop :=
  ∀ p ∈ groups, ∀ t ∈ p.2, t.length = L

theorem nutrientDictToTuple_length (n : NutrientInfos)
    (d : List (String × ℚ)) :
    (n.nutrientDictToTuple d).length = n.nutrients.length := by
  simp [NutrientInfos.nutrientDictToTuple]

theorem minLen_eq (xss : List (List ℚ)) (L : Nat)
    (h : ∀ xs ∈ xss, xs.length = L) (hne : xss ≠ []) : minLen xss = L := by
  induction xss with
  | nil => exact absurd rfl hne
  | cons xs rest ih =>
      cases rest with
      | nil => simp [minLen, h xs (by simp)]
      | cons y t =>
          have h1 : xs.length = L := h xs (by simp)
          have h2 : minLen (y :: t) = L :=
            ih (fun z hz => h z (by simp [hz])) (by simp)
          simp [minLen, h1, h2]

theorem sumZip_getD (xss : List (List ℚ)) (L i : Nat)
    (h : ∀ xs ∈ xss, xs.length = L) (hi : i < L) :
    (sumZip xss).getD i 0 = (xss.map (fun xs => xs.getD i 0)).sum := by
  cases xss with
  | nil => simp [sumZip, minLen]
  | cons xs rest =>
      have hmin : minLen (xs :: rest) = L := minLen_eq _ L h (by simp)
      rw [sumZip, hmin, List.getD_eq_getElem?_getD, List.getElem?_map]
      simp [List.getElem?_range, hi]

theorem appendToGroup_sumI (i : Nat) (groups : List (Int × List (List ℚ)))
    (m : Int) (t : List ℚ) :
    groupsSumI i (appendToGroup groups m t) =
      groupsSumI i groups + t.getD i 0 := by
  induction groups with
  | nil => simp [appendToGroup, groupsSumI]
  | cons g rest ih =>
      by_cases h : g.1 = m
      · simp only [appendToGroup, if_pos h, groupsSumI, List.map_cons,
          List.sum_cons, List.map_append, List.sum_append, List.map_nil,
          List.sum_nil]
        ring
      · simp only [appendToGroup, if_neg h, groupsSumI, List.map_cons,
          List.sum_cons] at ih ⊢
        rw [ih]
        ring

theorem appendToGroup_wf (L : Nat) (groups : List (Int × List (List ℚ)))
    (m : Int) (t : List ℚ) (hg : groupsWF L groups) (ht : t.length = L) :
    groupsWF L (appendToGroup groups m t) := by
  induction groups with
  | nil =>
      intro p hp t' ht'
      simp [appendToGroup] at hp
      subst hp
      simp at ht'
      subst ht'
      exact ht
  | cons g rest ih =>
      intro p hp t' ht'
      unfold appendToGroup at hp
      by_cases h : g.1 = m
      · rw [if_pos h] at hp
        rcases List.mem_cons.mp hp with hp | hp
        · subst hp
          simp at ht'
          rcases ht' with ht' | ht'
          · exact hg g (List.mem_cons_self _ _) t' ht'
          · subst ht'
            exact ht
        · exact hg p (List.mem_cons_of_mem _ hp) t' ht'
      · rw [if_neg h] at hp
        rcases List.mem_cons.mp hp with hp | hp
        · exact hg g (List.mem_cons_self _ _) t' (hp ▸ ht')
        · exact ih (fun q hq => hg q (List.mem_cons_of_mem _ hq)) p hp t' ht'

theorem groups_sumZip_getD (i L : Nat) (hi : i < L)
    (groups : List (Int × List (List ℚ))) (hwf : groupsWF L groups) :
    (groups.map (fun p => (sumZip p.2).getD i 0)).sum = groupsSumI i groups := by
  induction groups with
  | nil => simp [groupsSumI]
  | cons g rest ih =>
      have h1 : (sumZip g.2).getD i 0 = (g.2.map (fun t => t.getD i 0)).sum :=
        sumZip_getD g.2 L i (fun t htm => hwf g (List.mem_cons_self _ _) t htm) hi
      simp only [groupsSumI, List.map_cons, List.sum_cons] at ih ⊢
      rw [h1, ih (fun q hq => hwf q (List.mem_cons_of_mem _ hq))]

theorem sum_filter_split (l : List Serving) (g : Serving → ℚ) :
    ((l.filter (fun s => s.meal ≠ 0)).map g).sum
      + ((l.filter (fun s => s.meal = 0)).map g).sum = (l.map g).sum := by
  induction l with
  | nil => simp
  | cons s rest ih =>
      by_cases h : s.meal = 0
      · simp [List.filter_cons, h] at ih ⊢
        linarith [ih]
      · simp [List.filter_cons, h] at ih ⊢
        linarith [ih]

theorem zip_map_self {α β : Type} (l : List α) (g : α → β) :
    l.zip (l.map g) = l.map (fun a => (a, g a)) := by
  simpa using List.zip_map' (fun a => a) g l

theorem buildFold_spec (getFood : FoodSource → Nat → Option Food)
    (nutInfo : NutrientInfos) (i : Nat) :
    ∀ (l : List Serving) (acc acc' : BuildAcc),
      l.foldlM (buildStep getFood nutInfo) acc = Except.ok acc' →
      acc'.servingTuples = acc.servingTuples ++ l.map (tupOf getFood nutInfo)
      ∧ groupsSumI i acc'.mealTuples =
          groupsSumI i acc.mealTuples +
            ((l.filter (fun s => s.meal ≠ 0)).map (tupI getFood nutInfo i)).sum
      ∧ (groupsWF nutInfo.nutrients.length acc.mealTuples →
          groupsWF nutInfo.nutrients.length acc'.mealTuples)
      ∧ ((∀ t ∈ acc.servingTuples, t.length = nutInfo.nutrients.length) →
          ∀ t ∈ acc'.servingTuples, t.length = nutInfo.nutrients.length) := by
  intro l
  induction l with
  | nil =>
      intro acc acc' h
      simp only [List.foldlM_nil] at h
      cases h
      refine ⟨by simp, by simp, fun hw => hw, fun hw => hw⟩
  | cons s rest ih =>
      intro acc acc' h
      rw [List.foldlM_cons] at h
      cases hs : buildStep getFood nutInfo acc s with
      | error e =>
          rw [hs] at h
          have h2 : (Except.error e : Except BuildError BuildAcc) =
              Except.ok acc' := h
          simp at h2
      | ok acc1 =>
          rw [hs] at h
          have h' : rest.foldlM (buildStep getFood nutInfo) acc1 =
              Except.ok acc' := h
          obtain ⟨ht, hg, hwf, hlen⟩ := ih acc1 acc' h'
          unfold buildStep at hs
          cases hgf : getFood s.source s.food with
          | none =>
              simp only [hgf] at hs
              exact absurd hs (by simp)
          | some food =>
              simp only [hgf] at hs
              cases hm : food.getMeasureByName s.measure with
              | none =>
                  simp only [hm] at hs
                  exact absurd hs (by simp)
              | some measure =>
                  simp only [hm, Except.ok.injEq] at hs
                  subst hs
                  have htup : tupOf getFood nutInfo s =
                      nutInfo.nutrientDictToTuple (food.nutrientDict s.grams) := by
                    simp [tupOf, hgf]
                  refine ⟨?_, ?_, ?_, ?_⟩
                  · rw [ht]
                    simp [htup]
                  · rw [hg]
                    by_cases hml : s.meal = 0
                    · simp [hml, List.filter_cons]
                    · simp only [List.filter_cons]
                      simp only [hml, decide_not]
                      simp [appendToGroup_sumI, tupI, htup, hml]
                      ring
                  · intro hw
                    apply hwf
                    by_cases hml : s.meal = 0
                    · simpa [hml] using hw
                    · simp only [if_pos (show s.meal ≠ 0 from hml)]
                      exact appendToGroup_wf _ _ _ _ hw
                        (nutrientDictToTuple_length nutInfo _)
                  · intro hw t htm
                    refine hlen ?_ t htm
                    intro t' ht'
                    rcases List.mem_append.mp ht' with ht' | ht'
                    · exact hw t' ht'
                    · rw [List.mem_singleton.mp ht']
                      exact nutrientDictToTuple_length nutInfo _

/-- C2: for every catalog and serving list from which a UserDay builds
successfully, and every schema position i, the sum of the per-meal
totals at i plus the sum at i of the vectors of the servings whose meal
id is 0 equals the whole-day total at i. -/
theorem userDay_meal_partition (getFood : FoodSource → Nat → Option Food)
    (nutInfo : NutrientInfos) (servings : List Serving) (day : DayData)
    (h : buildDay getFood nutInfo servings = Except.ok day) (i : Nat)
    (hi : i < nutInfo.nutrients.length) :
    (day.mealNutrition.map (fun p => p.2.getD i 0)).sum
      + (((servings.zip day.servingTuples).filter
          (fun p => p.1.meal = 0)).map (fun p => p.2.getD i 0)).sum
      = day.nutrition.getD i 0 := by
  unfold buildDay at h
  cases hf : servings.foldlM (buildStep getFood nutInfo)
      { foods := [], servingTuples := [], servingSize := [], meals := [],
        mealTuples := [], servingsByMeal := [] } with
  | error e =>
      rw [hf] at h
      simp at h
  | ok acc =>
      rw [hf] at h
      simp only [Except.ok.injEq] at h
      subst h
      obtain ⟨ht, hg, hwf, hlen⟩ := buildFold_spec getFood nutInfo i servings _ acc hf
      simp only [List.nil_append] at ht
      have hg' : groupsSumI i acc.mealTuples =
          ((servings.filter (fun s => s.meal ≠ 0)).map
            (tupI getFood nutInfo i)).sum := by
        simpa [groupsSumI] using hg
      have hwf0 : groupsWF nutInfo.nutrients.length acc.mealTuples :=
        hwf (fun p hp => absurd hp (List.not_mem_nil p))
      have hlen0 : ∀ t ∈ acc.servingTuples, t.length = nutInfo.nutrients.length :=
        hlen (fun t htm => absurd htm (List.not_mem_nil t))
      have hM : ((acc.mealTuples.map (fun p => (p.1, sumZip p.2))).map
            (fun p => p.2.getD i 0)).sum = groupsSumI i acc.mealTuples := by
        rw [List.map_map]
        simpa [Function.comp_def] using
          groups_sumZip_getD i nutInfo.nutrients.length hi acc.mealTuples hwf0
      have hz : servings.zip acc.servingTuples =
          servings.map (fun s => (s, tupOf getFood nutInfo s)) := by
        rw [ht]
        exact zip_map_self servings (tupOf getFood nutInfo)
      have h0 : (((servings.zip acc.servingTuples).filter
            (fun p => p.1.meal = 0)).map (fun p => p.2.getD i 0)).sum
          = ((servings.filter (fun s => s.meal = 0)).map
            (tupI getFood nutInfo i)).sum := by
        rw [hz, List.map_filter, List.map_map]
        have htupI : tupI getFood nutInfo i =
            fun s => (tupOf getFood nutInfo s).getD i 0 := rfl
        rw [htupI]
        simp [Function.comp_def]
      have hR : (sumZip acc.servingTuples).getD i 0
          = (acc.servingTuples.map (fun t => t.getD i 0)).sum :=
        sumZip_getD _ _ i hlen0 hi
      have hT : (acc.servingTuples.map (fun t => t.getD i 0)).sum
          = (servings.map (tupI getFood nutInfo i)).sum := by
        rw [ht, List.map_map]
        have htupI : tupI getFood nutInfo i =
            fun s => (tupOf getFood nutInfo s).getD i 0 := rfl
        rw [htupI]
        simp [Function.comp_def]
      have hsplit := sum_filter_split servings (tupI getFood nutInfo i)
      dsimp only
      linarith [hM, h0, hg', hsplit, hR, hT]

/-- C10: building a UserDay from an empty serving list yields the empty
whole-day nutrition tuple (length 0, not a schema-length vector of
zeros), an empty meal list and no per-meal totals. -/
theorem userDay_empty_build (getFood : FoodSource → Nat → Option Food)
    (nutInfo : NutrientInfos) :
    buildDay getFood nutInfo [] =
      Except.ok { foods := [], servingTuples := [], servingSize := [],
                  meals := [], servingsByMeal := [], nutrition := [],
                  mealNutrition := [] } := by
  have h1 : ([] : List Serving).foldlM (buildStep getFood nutInfo)
      { foods := [], servingTuples := [], servingSize := [], meals := [],
        mealTuples := [], servingsByMeal := [] } =
      Except.ok
        { foods := [], servingTuples := [], servingSize := [], meals := [],
          mealTuples := [], servingsByMeal := [] } := rfl
  unfold buildDay
  rw [h1]
  simp [sumZip, minLen, List.mergeSort_nil]

theorem buildFold_error (getFood : FoodSource → Nat → Option Food)
    (nutInfo : NutrientInfos) (s : Serving) (food : Food)
    (hg : getFood s.source s.food = some food)
    (hm : food.getMeasureByName s.measure = none) :
    ∀ (l : List Serving) (acc : BuildAcc), s ∈ l →
      ∃ e, l.foldlM (buildStep getFood nutInfo) acc = Except.error e := by
  intro l
  induction l with
  | nil =>
      intro acc hmem
      exact absurd hmem (List.not_mem_nil s)
  | cons x rest ih =>
      intro acc hmem
      rcases List.mem_cons.mp hmem with hmem | hmem
      · subst hmem
        refine ⟨BuildError.measureNotFound s.measure, ?_⟩
        rw [List.foldlM_cons]
        have hstep : buildStep getFood nutInfo acc s =
            Except.error (BuildError.measureNotFound s.measure) := by
          unfold buildStep
          simp only [hg, hm]
        rw [hstep]
        rfl
      · rw [List.foldlM_cons]
        cases hx : buildStep getFood nutInfo acc x with
        | error e => exact ⟨e, rfl⟩
        | ok acc1 =>
            obtain ⟨e, he⟩ := ih acc1 hmem
            exact ⟨e, he⟩

/-- C9: Food.getMeasureByName returns the 1-gram GRAM measure for an
empty name; for a nonempty name it returns the first measure whose
description equals the name, and `none` (the IndexError) when no
measure matches; consequently building a day fails whenever some
serving's resolvable food has no measure matching its nonempty measure
override. -/
theorem getMeasureByName_boundary :
    (∀ f : Food, f.getMeasureByName "" = some GRAM)
    ∧ (∀ (f : Food) (name : String), name ≠ "" →
        f.getMeasureByName name =
          (f.measures.filter (fun m => m.description = name)).head?)
    ∧ (∀ (getFood : FoodSource → Nat → Option Food)
        (nutInfo : NutrientInfos) (servings : List Serving) (s : Serving)
        (food : Food),
        s ∈ servings → getFood s.source s.food = some food →
        s.measure ≠ "" →
        food.measures.filter (fun m => m.description = s.measure) = [] →
        ∃ e, buildDay getFood nutInfo servings = Except.error e) := by
  refine ⟨fun f => rfl, fun f name hne => ?_, ?_⟩
  · simp [Food.getMeasureByName, hne]
  · intro getFood nutInfo servings s food hmem hgf hne hfil
    have hm : food.getMeasureByName s.measure = none := by
      simp [Food.getMeasureByName, hne, hfil]
    obtain ⟨e, he⟩ :=
      buildFold_error getFood nutInfo s food hgf hm servings
        { foods := [], servingTuples := [], servingSize := [], meals := [],
          mealTuples := [], servingsByMeal := [] } hmem
    refine ⟨e, ?_⟩
    unfold buildDay
    rw [he]

/-- A one-nutrient schema ("Carbs") for concrete day-building runs. -/
def wNutInfo : NutrientInfos :=
  ⟨[{ name := "Carbs", unit := NutrientUnit.gram,
      category := NutrientCategory.general, rdi := 0, parentName := none,
      legacyIds := [], usdaIds := [], sparse := false, track := true,
      dris := [], cronIndex := 0 }]⟩

/-- A food holding 25 Carbs per 100 g. -/
def wFood2 : Food :=
  { name := "bread", uid := 1, measures := [GRAM],
    nutrients := [{ name := "Carbs", amount := 25 }],
    foodSource := FoodSource.legacy }

/-- A 200 g serving in meal 1. -/
def wServing1 : Serving :=
  { date := 0, source := FoodSource.legacy, food := 1, grams := 200,
    measure := "", meal := 1 }

/-- An 80 g serving outside any meal. -/
def wServing0 : Serving :=
  { date := 0, source := FoodSource.legacy, food := 1, grams := 80,
    measure := "", meal := 0 }

/-- The day data built from the two concrete servings. -/
def wDay : DayData :=
  { foods := [wFood2, wFood2], servingTuples := [[50], [20]],
    servingSize := [200, 80], meals := [1],
    servingsByMeal := [(1, [wServing1])], nutrition := [70],
    mealNutrition := [(1, [50])] }

/-- Witness for C2: with meal-1 carbs 50 and meal-0 carbs 20, the meal
sum plus the no-meal sum (70) equals the day total at position 0. -/
theorem userDay_meal_partition_witness :
    ((wDay.mealNutrition.map (fun p => p.2.getD 0 0)).sum
      + ((([wServing1, wServing0].zip wDay.servingTuples).filter
          (fun p => p.1.meal = 0)).map (fun p => p.2.getD 0 0)).sum
      = wDay.nutrition.getD 0 0) :=
  userDay_meal_partition (fun _ _ => some wFood2) wNutInfo
    [wServing1, wServing0] wDay
    (by
      norm_num [buildDay, List.foldlM_cons, List.foldlM_nil, buildStep,
        Bind.bind, Except.bind, pure, Except.pure, wNutInfo, wFood2,
        wServing1, wServing0, wDay, Food.nutrientDict,
        NutrientInfos.nutrientDictToTuple, dictGet, Food.getMeasureByName,
        appendToGroup, GRAM, sumZip, minLen, List.mergeSort_singleton,
        List.range_succ, List.range_zero, List.getElem?_cons_zero])
    0 (by decide)

/-- Witness for C9: a serving whose measure override "bogus" names no
measure of its (resolvable) food makes the day build fail. -/
theorem getMeasureByName_boundary_witness :
    ∃ e, buildDay (fun _ _ => some wFood2) wNutInfo
        [{ date := 0, source := FoodSource.legacy, food := 1, grams := 100,
           measure := "bogus", meal := 0 }] = Except.error e :=
  getMeasureByName_boundary.2.2 (fun _ _ => some wFood2) wNutInfo
    [{ date := 0, source := FoodSource.legacy, food := 1, grams := 100,
       measure := "bogus", meal := 0 }]
    { date := 0, source := FoodSource.legacy, food := 1, grams := 100,
      measure := "bogus", meal := 0 } wFood2
    (by simp) rfl (by decide) (by decide)
